import Mathlib

/-!
Verification of the used-guitar price-prediction pipeline
(`src/scrape.py`, `src/transform.py`).

The transform stage (`transform.py`) is embedded over `List Char` / `String`:
the seven year regexes are fixed-length sequences of character classes, so a
regex is a `List (Char → Bool)` and a search is a leftmost scan; pandas
dataframes become lists of structures; Python `int()` / `float()` become
`Option Int` / `Option Rat` parsers (modelling the sign/digits/fraction forms,
which cover every string the pipeline can feed them; exotic Python literal
forms such as underscores or exponents never arise here); a raised Python
exception becomes `Except.error`.
-/

set_option maxHeartbeats 1000000

namespace Guitar

/-- Whitespace predicate matching Python `str.split` / `int()` stripping
(space, tab, newline, carriage return, vertical tab, form feed). -/
def isPySpace (c : Char) : Bool :=
  c == ' ' || c == '\t' || c == '\n' || c == '\r' || c == '\x0b' || c == '\x0c'

/-- Character-list prefix test (needle is a prefix of hay). -/
def startsWithChars : List Char → List Char → Bool
  | [], _ => true
  | _ :: _, [] => false
  | a :: as, b :: bs => a == b && startsWithChars as bs

/-- Contiguous-sublist test on character lists; `containsSub n h` is the
semantics of Python `n in h` for strings. -/
def containsSub (needle : List Char) : List Char → Bool
  | [] => needle.isEmpty
  | c :: rest => startsWithChars needle (c :: rest) || containsSub needle rest

/-- Python substring containment `needle in hay` on `String`. -/
def strContains (needle hay : String) : Bool :=
  containsSub needle.data hay.data

/-- Character class `[lo-hi]` of the regexes, by code point. -/
def inRange (lo hi : Char) : Char → Bool :=
  fun c => decide (lo.toNat ≤ c.toNat) && decide (c.toNat ≤ hi.toNat)

/-- Single-character class `[c]` of the regexes. -/
def chrEq (a : Char) : Char → Bool :=
  fun c => c == a

/-- Does the fixed-length pattern match a prefix of the character list? -/
def matchesAt : List (Char → Bool) → List Char → Bool
  | [], _ => true
  | _ :: _, [] => false
  | p :: ps, c :: cs => p c && matchesAt ps cs

/-- Leftmost search of a fixed-length character-class pattern, returning the
matched substring — the semantics of Python `re.search(pat, s).group(0)` for
the quantifier-free patterns used in `get_model_year`. -/
def reSearch (pat : List (Char → Bool)) : List Char → Option (List Char)
  | [] => if matchesAt pat [] then some (List.take pat.length []) else none
  | c :: cs =>
      if matchesAt pat (c :: cs) then some (List.take pat.length (c :: cs))
      else reSearch pat cs

/-- Pattern `[1][9][3-9][0-9][s]` (src/transform.py line 112). -/
def regex_one : List (Char → Bool) :=
  [chrEq '1', chrEq '9', inRange '3' '9', inRange '0' '9', chrEq 's']

/-- Pattern `[1][9][3-9][0-9]` (src/transform.py line 113). -/
def regex_two : List (Char → Bool) :=
  [chrEq '1', chrEq '9', inRange '3' '9', inRange '0' '9']

/-- Pattern `[2][0][01][0][s]` (src/transform.py line 114). -/
def regex_three : List (Char → Bool) :=
  [chrEq '2', chrEq '0', inRange '0' '1', chrEq '0', chrEq 's']

/-- Pattern `[2][0][01][0-9]` (src/transform.py line 115). -/
def regex_four : List (Char → Bool) :=
  [chrEq '2', chrEq '0', inRange '0' '1', inRange '0' '9']

/-- Pattern `['][0-9][0][s]` (src/transform.py line 116). -/
def regex_five : List (Char → Bool) :=
  [chrEq '\'', inRange '0' '9', chrEq '0', chrEq 's']

/-- Pattern `[0-9][0][s]` (src/transform.py line 117). -/
def regex_six : List (Char → Bool) :=
  [inRange '0' '9', chrEq '0', chrEq 's']

/-- Pattern `['][0-9][0-9]` (src/transform.py line 118). -/
def regex_seven : List (Char → Bool) :=
  [chrEq '\'', inRange '0' '9', inRange '0' '9']

/-- The seven patterns in the priority order of the `if`/`elif` chain of
`get_model_year` (src/transform.py lines 119-132). -/
def yearPatterns : List (List (Char → Bool)) :=
  [regex_one, regex_two, regex_three, regex_four, regex_five, regex_six, regex_seven]

/-- Embedding of `get_model_year` (src/transform.py lines 97-134): try the
seven regexes on the title in order and return the first match's raw text,
`none` (for `np.nan`) when no pattern matches. -/
def get_model_year (name : String) : Option String :=
  match reSearch regex_one name.data with
  | some m => some (String.mk m)
  | none =>
  match reSearch regex_two name.data with
  | some m => some (String.mk m)
  | none =>
  match reSearch regex_three name.data with
  | some m => some (String.mk m)
  | none =>
  match reSearch regex_four name.data with
  | some m => some (String.mk m)
  | none =>
  match reSearch regex_five name.data with
  | some m => some (String.mk m)
  | none =>
  match reSearch regex_six name.data with
  | some m => some (String.mk m)
  | none =>
  match reSearch regex_seven name.data with
  | some m => some (String.mk m)
  | none => none

/-- Value of a list of decimal digit characters (most significant first). -/
def digitsToNat (cs : List Char) : Nat :=
  cs.foldl (fun n c => n * 10 + (c.toNat - 48)) 0

/-- Digit-run parser used by the `int()` model: a nonempty all-digit list. -/
def digitsValInt (cs : List Char) : Option Int :=
  if cs.isEmpty then none
  else if cs.all (inRange '0' '9') then some (digitsToNat cs : Int)
  else none

/-- Strip Python-`int()` surrounding whitespace from both ends. -/
def stripEnds (cs : List Char) : List Char :=
  ((cs.dropWhile isPySpace).reverse.dropWhile isPySpace).reverse

/-- Sign handling of the `int()` model: one optional leading sign, then a
nonempty digit run. -/
def pyIntCore (cs : List Char) : Option Int :=
  match cs with
  | [] => none
  | c0 :: rest =>
      if c0 == '+' then digitsValInt rest
      else if c0 == '-' then (digitsValInt rest).map (fun n => -n)
      else digitsValInt (c0 :: rest)

/-- Model of Python `int(s)` on a string: surrounding whitespace, an optional
sign, then decimal digits; anything else raises (here: `none`). Digit-group
underscores and non-ASCII digits, which `int()` also accepts, cannot occur in
any string this pipeline produces and are not modelled. -/
def pyInt (s : String) : Option Int :=
  pyIntCore (stripEnds s.data)

/-- Embedding of `clean_model_year` (src/transform.py lines 137-171): on a
present (string) model year, nine substring checks in fixed order with the
first hit winning, else `int()`; a missing model year passes through.
`Except.error ()` is the uncaught `ValueError` of a failed `int()`. -/
def clean_model_year (modelYear : Option String) : Except Unit (Option Int) :=
  match modelYear with
  | some s =>
      if strContains "00s" s then .ok (some 2005)
      else if strContains "10s" s then .ok (some 2015)
      else if strContains "30s" s then .ok (some 1935)
      else if strContains "50s" s then .ok (some 1955)
      else if strContains "60s" s then .ok (some 1965)
      else if strContains "'69" s then .ok (some 1969)
      else if strContains "70s" s then .ok (some 1975)
      else if strContains "80s" s then .ok (some 1985)
      else if strContains "90s" s then .ok (some 1995)
      else match pyInt s with
           | some n => .ok (some n)
           | none => .error ()
  | none => .ok none

/-- Decade remap table of `clean_model_year`, in the order the source checks
the substrings (src/transform.py lines 151-168). -/
def decadeTable : List (String × Int) :=
  [("00s", 2005), ("10s", 2015), ("30s", 1935), ("50s", 1955), ("60s", 1965),
   ("'69", 1969), ("70s", 1975), ("80s", 1985), ("90s", 1995)]

/-- Specification rendering of the year normalization (claim C2): first
containing entry of `decadeTable` wins, otherwise the raw text is parsed as an
integer literal, and a missing extraction stays missing. -/
def clean_model_year_table (modelYear : Option String) : Except Unit (Option Int) :=
  match modelYear with
  | none => .ok none
  | some s =>
      match decadeTable.find? (fun p => strContains p.1 s) with
      | some p => .ok (some p.2)
      | none =>
          match pyInt s with
          | some n => .ok (some n)
          | none => .error ()

/-- Literal color vocabulary of `get_model_color`, in source list order
(src/transform.py lines 188-211). -/
def colors : List String :=
  ["Burst", "Sunburst", "Fireburst", "Honeyburst", "Blue", "White", "Black",
   "Natural", "Blonde", "Turquoise", "Red", "Green", "Gold", "Silver", "Pink",
   "Yellow", "Orange", "Cherry", "Violet", "Ebony", "Brown", "Mahogany",
   "Walnut", "Ivory"]

/-- Embedding of `get_model_color` (src/transform.py lines 174-218): first
color of the vocabulary occurring as a (case-sensitive) substring of the
title, `"NA"` when none occurs. -/
def get_model_color (name : String) : String :=
  match colors.find? (fun c => strContains c name) with
  | some c => c
  | none => "NA"

/-- Fraction-aware digit parser of the `float()` model: integer digits with an
optional `.` and fractional digits, at least one digit in total. -/
def floatCore (cs : List Char) : Option Rat :=
  let intPart := cs.takeWhile (inRange '0' '9')
  let rest := cs.dropWhile (inRange '0' '9')
  match rest with
  | [] => if intPart.isEmpty then none else some ((digitsToNat intPart : Rat))
  | '.' :: fracPart =>
      if fracPart.all (inRange '0' '9') && !(intPart.isEmpty && fracPart.isEmpty) then
        some ((digitsToNat intPart : Rat) +
          (digitsToNat fracPart : Rat) / ((10 : Rat) ^ fracPart.length))
      else none
  | _ => none

/-- Model of Python `float(s)` on the plain decimal forms this pipeline feeds
it: surrounding whitespace, optional sign, digits with an optional fractional
part; anything else raises (here: `none`). Exponent/`inf`/`nan` forms never
arise from the price strings and are not modelled. -/
def pyFloat (s : String) : Option Rat :=
  match stripEnds s.data with
  | [] => none
  | c0 :: rest =>
      if c0 == '+' then floatCore rest
      else if c0 == '-' then (floatCore rest).map (fun q => -q)
      else floatCore (c0 :: rest)

/-- The `row.replace(',','')[1:]` transform applied to both price columns
(src/transform.py lines 48 and 236): delete every comma, then drop the first
character. -/
def stripCommasDropFirst (s : String) : String :=
  String.mk ((s.data.filter (fun c => !(c == ','))).drop 1)

/-- Embedding of `clean_asking_price` (src/transform.py lines 221-236): the
literal string `"FREE"` becomes missing, anything else is comma-stripped,
beheaded and `float()`-parsed; a parse failure is the uncaught `ValueError`. -/
def clean_asking_price (asking : String) : Except Unit (Option Rat) :=
  if asking == "FREE" then .ok none
  else
    match pyFloat (stripCommasDropFirst asking) with
    | some q => .ok (some q)
    | none => .error ()

/-- One raw scraped sale record, the row shape of the dictionary built by
`get_data` (src/scrape.py line 127). -/
structure SaleRecord where
  Name : String
  Date : String
  Condition : String
  Asking : String
  Final : String
deriving DecidableEq

/-- Row of the dataframe produced by `to_df`: the raw record plus the derived
`Brand` column (src/transform.py lines 80-85). -/
structure RawRow where
  Final : String
  Asking : String
  Name : String
  Date : String
  Condition : String
  Brand : String
deriving DecidableEq

/-- Row of the full cleaned table after all of `main`'s column rewrites
(src/transform.py lines 36-52): numeric prices, parsed year and color. -/
structure Row where
  Final : Rat
  Asking : Option Rat
  Name : String
  Date : String
  Condition : String
  Brand : String
  ModelYear : Option Int
  ModelColor : String
deriving DecidableEq

/-- Embedding of `name.split()[0]` (src/transform.py line 85): the first
whitespace-delimited token of the name. A name with no token makes Python
raise `IndexError`; that case is modelled as `""`, which no real token
equals (tokens are nonempty). -/
def brandOf (name : String) : String :=
  String.mk ((name.data.dropWhile isPySpace).takeWhile (fun c => !isPySpace c))

/-- Brand column of a list of rows. -/
def brands (rows : List RawRow) : List String :=
  rows.map (fun r => r.Brand)

/-- Model of `df['Brand'].value_counts()` (src/transform.py line 88) before
sorting: each distinct brand paired with its row count. pandas leaves the
order of equal-count brands unspecified; the model fixes the first-seen order
of `List.dedup` and sorts stably, which realizes one admissible order. -/
def brandCounts (rows : List RawRow) : List (String × Nat) :=
  (brands rows).dedup.map (fun b => (b, (brands rows).count b))

/-- Descending-count comparison used to sort the brand counts. -/
def cntGE (a b : String × Nat) : Prop :=
  b.2 ≤ a.2

instance : DecidableRel cntGE := fun a b => inferInstanceAs (Decidable (b.2 ≤ a.2))

instance : IsTotal (String × Nat) cntGE := ⟨fun a b => le_total b.2 a.2⟩

instance : IsTrans (String × Nat) cntGE :=
  ⟨fun _ _ _ hab hbc => le_trans hbc hab⟩

/-- Model of `value_counts().index.tolist()[:20]` (src/transform.py line 88):
brands sorted by descending count, first twenty kept. -/
def top_twenty (rows : List RawRow) : List String :=
  ((List.insertionSort cntGE (brandCounts rows)).take 20).map Prod.fst

/-- Records as rows of the initial dataframe with the `Brand` column added
(src/transform.py lines 80-85). -/
def rawRows (records : List SaleRecord) : List RawRow :=
  records.map (fun r =>
    { Final := r.Final, Asking := r.Asking, Name := r.Name, Date := r.Date,
      Condition := r.Condition, Brand := brandOf r.Name })

/-- Embedding of `to_df` (src/transform.py lines 65-94): build the dataframe,
derive `Brand`, and keep only rows whose brand is among the twenty most
frequent (`isin` mask, lines 91-92). -/
def to_df (records : List SaleRecord) : List RawRow :=
  let rows := rawRows records
  rows.filter (fun r => (top_twenty rows).contains r.Brand)

/-- Per-row effect of `main`'s column rewrites (src/transform.py lines 36-52):
extract and clean the model year, extract the color, convert `Final` by
`float(row.replace(',','')[1:])`, convert `Asking` by `clean_asking_price`.
Any raised `ValueError` aborts the whole run (`Except.error`). -/
def addDerived (r : RawRow) : Except Unit Row :=
  match clean_model_year (get_model_year r.Name) with
  | .error e => .error e
  | .ok my =>
    match pyFloat (stripCommasDropFirst r.Final) with
    | none => .error ()
    | some fin =>
      match clean_asking_price r.Asking with
      | .error e => .error e
      | .ok ask =>
          .ok { Final := fin, Asking := ask, Name := r.Name, Date := r.Date,
                Condition := r.Condition, Brand := r.Brand,
                ModelYear := my, ModelColor := get_model_color r.Name }

/-- The column rewrites of `main` applied row by row (pandas `apply` maps each
row independently; a raised exception aborts the run). -/
def applyRows : List RawRow → Except Unit (List Row)
  | [] => .ok []
  | r :: rest =>
      match addDerived r with
      | .error e => .error e
      | .ok row =>
        match applyRows rest with
        | .error e => .error e
        | .ok rows => .ok (row :: rows)

/-- Embedding of the row filtering of `df_format` (src/transform.py lines
254-259): drop rows with a missing model year, drop rows with a missing
asking price, keep final prices strictly above 30, keep final prices strictly
below 40000. The subsequent one-hot encoding and `concat` (lines 262-270) are
column operations on the surviving rows and do not change row membership, so
the feature table's row set is exactly this filter's output. -/
def df_format (df : List Row) : List Row :=
  let df1 := df.filter (fun r => r.ModelYear.isSome)
  let df2 := df1.filter (fun r => r.Asking.isSome)
  let df3 := df2.filter (fun r => decide ((30 : Rat) < r.Final))
  df3.filter (fun r => decide (r.Final < (40000 : Rat)))

/-- Conjunction of the four row filters of `df_format`. -/
def rowPasses (r : Row) : Bool :=
  r.ModelYear.isSome && r.Asking.isSome &&
    decide ((30 : Rat) < r.Final) && decide (r.Final < (40000 : Rat))

/-- The element lists `get_data` reads from one listing page
(src/scrape.py lines 164-168): heading text, date elements, condition
elements, price elements, each in document order. -/
structure Page where
  heading : String
  dates : List String
  conditions : List String
  prices : List String

/-- The per-page contribution `get_data` appends to each column of the
accumulating dictionary. -/
structure PageData where
  Name : List String
  Date : List String
  Condition : List String
  Asking : List String
  Final : List String

/-- The price loop of `get_data` (src/scrape.py lines 186-193): a counter
starts at 1 and each price goes to `Asking` when the counter is odd, to
`Final` when it is even. -/
def splitPrices : Nat → List String → List String × List String
  | _, [] => ([], [])
  | counter, p :: rest =>
      let acc := splitPrices (counter + 1) rest
      if counter % 2 == 1 then (p :: acc.1, acc.2) else (acc.1, p :: acc.2)

/-- Embedding of the per-link body of `get_data` (src/scrape.py lines
164-193), reached only when a date element is present: the heading is
repeated `len(dates) - 1` times, the first date and condition entries are
discarded, and the prices are split by counter parity. -/
def get_data_page (p : Page) : PageData :=
  let askingFinal := splitPrices 1 p.prices
  { Name := (List.range (p.dates.length - 1)).map (fun _ => p.heading)
    Date := p.dates.drop 1
    Condition := p.conditions.drop 1
    Asking := askingFinal.1
    Final := askingFinal.2 }

/-- Embedding of the keep-link condition of `get_site_links`
(src/scrape.py line 103): Python evaluates `'price-guide' and '/guide' in
link` as `bool('price-guide') and ('/guide' in link)`, and the left operand is
a constant nonempty (hence truthy) string. -/
def keep_link (link : String) : Bool :=
  if ("price-guide" : String).length == 0 then false
  else strContains "/guide" link

/-- Specification rendering of the keep-link condition (claim C10): the
single substring test `'/guide' in link`. -/
def keep_link_spec (link : String) : Bool :=
  strContains "/guide" link

/-- Sale record with the given title and fixed well-formed price fields. -/
def mkRec (nm : String) : SaleRecord :=
  { Name := nm, Date := "d", Condition := "c", Asking := "$4", Final := "$5" }

/-- Forty-one records: twenty brands with two sales each and the brand
`"Z"` with a single sale, putting `"Z"` at frequency rank 21. -/
def c8recs : List SaleRecord :=
  (["B1", "C1", "D1", "E1", "F1", "G1", "H1", "I1", "J1", "K1", "L1", "M1",
    "N1", "O1", "P1", "Q1", "R1", "S1", "T1", "U1"].map
      (fun s => [mkRec s, mkRec s])).flatten ++ [mkRec "Z"]

/-- Concrete listing page with three date entries and four price elements. -/
def c7page : Page :=
  { heading := "G", dates := ["d0", "d1", "d2"], conditions := ["c0", "c1", "c2"],
    prices := ["a1", "f1", "a2", "f2"] }

/-- Row used to exercise the `Final = 25` example of the dataset-builder
filter: it passes every filter except the lower price bound. -/
def c6row : Row :=
  { Final := 25, Asking := some 20, Name := "Gibson SG", Date := "d",
    Condition := "c", Brand := "Gibson", ModelYear := some 1968,
    ModelColor := "NA" }

/-- Membership in the filtered feature table is membership in the input
together with the four filter predicates. -/
theorem mem_df_format {df : List Row} {r : Row} :
    r ∈ df_format df ↔ (r ∈ df ∧ rowPasses r = true) := by
  simp only [df_format, List.mem_filter, rowPasses, Bool.and_eq_true,
    decide_eq_true_eq]
  tauto

/-- Collapsing the four sequential filters of `df_format` into one. -/
theorem df_format_eq_filter (df : List Row) : df_format df = df.filter rowPasses := by
  simp only [df_format, List.filter_filter]
  refine List.filter_congr (fun r _ => ?_)
  unfold rowPasses
  cases hy : r.ModelYear.isSome <;> cases ha : r.Asking.isSome <;>
    cases h3 : decide ((30 : Rat) < r.Final) <;>
    cases h4 : decide (r.Final < (40000 : Rat)) <;> rfl

/-- C10: the Link Collector's keep-link condition, written as the conjunction
`'price-guide' and '/guide' in link`, is equivalent for every URL string to
the single test that `/guide` occurs as a substring; a URL containing
`/guide` but not `price-guide` is still collected. -/
theorem keep_link_refines_guide_test :
    (∀ link, keep_link link = keep_link_spec link) ∧
    (keep_link "https://reverb.com/guide/123" = true ∧
     strContains "price-guide" "https://reverb.com/guide/123" = false) :=
  ⟨fun _ => rfl, by decide, by decide⟩

/-- C5: asking-price normalization maps the literal `"FREE"` to missing and
every other string to the decimal parse of the comma-stripped, beheaded
remainder; in particular `"$1,250"` gives 1250 and `"$99"` gives 99. -/
theorem clean_asking_price_spec :
    (∀ s, clean_asking_price s =
        if s == "FREE" then .ok none
        else (pyFloat (stripCommasDropFirst s)).elim (.error ()) (fun q => .ok (some q))) ∧
    clean_asking_price "FREE" = .ok none ∧
    clean_asking_price "$1,250" = .ok (some 1250) ∧
    clean_asking_price "$99" = .ok (some 99) := by
  refine ⟨fun s => ?_, rfl, rfl, rfl⟩
  unfold clean_asking_price
  cases h : s == "FREE" <;> simp only [h, if_pos, if_neg, Bool.false_eq_true,
    reduceIte] <;> cases pyFloat (stripCommasDropFirst s) <;> rfl

/-- C4 counterexample: the title `"Fender Telecaster Sunburst"` contains
`"Sunburst"` yet `get_model_color` does not return `"Burst"` — the scan is
case-sensitive and capital-B `"Burst"` is not a substring of `"Sunburst"`. -/
theorem sunburst_counterexample :
    strContains "Sunburst" "Fender Telecaster Sunburst" = true ∧
    get_model_color "Fender Telecaster Sunburst" ≠ "Burst" :=
  ⟨by decide, by decide⟩

/-- C4 (amended): the 24-name vocabulary is scanned in literal order and the
first name occurring as a case-sensitive substring is returned, `"NA"` when
none occurs; because the scan is case-sensitive and `"Burst"` is not a
substring of `"Sunburst"`, a title containing `"Sunburst"` but not a
capital-B `"Burst"` returns `"Sunburst"`, while any title containing
`"Burst"` returns `"Burst"`. -/
theorem get_model_color_case_sensitive :
    (∀ name, colors.all (fun c => !strContains c name) = true →
        get_model_color name = "NA") ∧
    (∀ name, strContains "Sunburst" name = true → strContains "Burst" name = false →
        get_model_color name = "Sunburst") ∧
    (∀ name, strContains "Burst" name = true → get_model_color name = "Burst") := by
  refine ⟨fun name h => ?_, fun name h1 h2 => ?_, fun name h => ?_⟩
  · have hn : colors.find? (fun c => strContains c name) = none := by
      rw [List.find?_eq_none]
      intro a ha
      have := (List.all_eq_true.mp h) a ha
      simpa using this
    simp [get_model_color, hn]
  · simp [get_model_color, colors, List.find?, h1, h2]
  · simp [get_model_color, colors, List.find?, h]

/-- C4 witness: the amended statement applied at the titles
`"Fender Telecaster Sunburst"` and `"plain guitar"`. -/
theorem get_model_color_case_sensitive_witness :
    (strContains "Sunburst" "Fender Telecaster Sunburst" = true ∧
     strContains "Burst" "Fender Telecaster Sunburst" = false ∧
     get_model_color "Fender Telecaster Sunburst" = "Sunburst") ∧
    (colors.all (fun c => !strContains c "plain guitar") = true ∧
     get_model_color "plain guitar" = "NA") :=
  ⟨⟨by decide, by decide,
    get_model_color_case_sensitive.2.1 "Fender Telecaster Sunburst" (by decide) (by decide)⟩,
   by decide,
   get_model_color_case_sensitive.1 "plain guitar" (by decide)⟩

/-- A successful prefix match means each character class accepts the
corresponding character of the matched prefix. -/
theorem matchesAt_forall₂ : ∀ (pat : List (Char → Bool)) (cs : List Char),
    matchesAt pat cs = true →
    List.Forall₂ (fun p c => p c = true) pat (cs.take pat.length) := by
  intro pat
  induction pat with
  | nil => intro cs _; exact List.Forall₂.nil
  | cons p ps ih =>
      intro cs h
      cases cs with
      | nil => simp [matchesAt] at h
      | cons c rest =>
          simp only [matchesAt, Bool.and_eq_true] at h
          exact List.Forall₂.cons h.1 (ih rest h.2)

/-- A successful search returns a substring whose characters satisfy the
pattern classes position by position. -/
theorem reSearch_forall₂ (pat : List (Char → Bool)) :
    ∀ (cs m : List Char), reSearch pat cs = some m →
      List.Forall₂ (fun p c => p c = true) pat m := by
  intro cs
  induction cs with
  | nil =>
      intro m h
      unfold reSearch at h
      split at h
      · cases h; exact matchesAt_forall₂ pat [] (by assumption)
      · cases h
  | cons c rest ih =>
      intro m h
      unfold reSearch at h
      split at h
      · cases h; exact matchesAt_forall₂ pat (c :: rest) (by assumption)
      · exact ih m h

/-- Unfolding of the single-character class. -/
theorem chrEq_eq {a c : Char} (h : chrEq a c = true) : c = a := by
  simpa [chrEq] using h

/-- A character in a narrower code-point range is in a wider one. -/
theorem inRange_widen {lo hi lo' hi' c : Char}
    (h : inRange lo hi c = true) (hlo : lo'.toNat ≤ lo.toNat) (hhi : hi.toNat ≤ hi'.toNat) :
    inRange lo' hi' c = true := by
  simp only [inRange, Bool.and_eq_true, decide_eq_true_eq] at h ⊢
  omega

/-- An element the predicate rejects survives `dropWhile`. -/
theorem mem_dropWhile_of_mem {p : Char → Bool} {c : Char} :
    ∀ {l : List Char}, c ∈ l → p c = false → c ∈ l.dropWhile p := by
  intro l
  induction l with
  | nil => intro h _; cases h
  | cons a as ih =>
      intro hmem hpc
      rw [List.dropWhile_cons]
      split
      · rcases List.mem_cons.mp hmem with rfl | hih
        · simp_all
        · exact ih hih hpc
      · exact hmem

/-- A non-whitespace character survives whitespace stripping. -/
theorem mem_stripEnds {c : Char} {cs : List Char} (h : c ∈ cs)
    (hc : isPySpace c = false) : c ∈ stripEnds cs := by
  unfold stripEnds
  rw [List.mem_reverse]
  apply mem_dropWhile_of_mem _ hc
  rw [List.mem_reverse]
  exact mem_dropWhile_of_mem h hc

/-- A digit run containing a non-digit fails to parse. -/
theorem digitsValInt_none {c : Char} {cs : List Char} (h : c ∈ cs)
    (hc : inRange '0' '9' c = false) : digitsValInt cs = none := by
  have hne : cs.isEmpty = false := by cases cs with | nil => cases h | cons => rfl
  have hall : cs.all (inRange '0' '9') = false := by
    cases hall : cs.all (inRange '0' '9') with
    | false => rfl
    | true => exact absurd (List.all_eq_true.mp hall c h) (by simp [hc])
  simp [digitsValInt, hne, hall]

/-- The sign-and-digits parse fails when the list holds a character that is
neither a digit nor a leading sign. -/
theorem pyIntCore_none {c : Char} {cs : List Char} (h : c ∈ cs)
    (hd : inRange '0' '9' c = false) (hp : (c == '+') = false)
    (hm : (c == '-') = false) : pyIntCore cs = none := by
  cases cs with
  | nil => rfl
  | cons c0 rest =>
      unfold pyIntCore
      rcases List.mem_cons.mp h with rfl | hmem
      · simp only [hp, hm, Bool.false_eq_true, if_false]
        exact digitsValInt_none h hd
      · by_cases h0 : (c0 == '+') = true
        · simp only [h0, if_true]
          exact digitsValInt_none hmem hd
        · by_cases h1 : (c0 == '-') = true
          · simp only [h0, h1, if_true, Bool.false_eq_true, if_false]
            rw [digitsValInt_none hmem hd]
            rfl
          · simp only [h0, h1, Bool.false_eq_true, if_false]
            exact digitsValInt_none (List.mem_cons.mpr (Or.inr hmem)) hd

/-- Python `int()` raises on any string containing a character that is not a
digit, not whitespace and not a sign. -/
theorem pyInt_none_of_bad {c : Char} {s : String} (h : c ∈ s.data)
    (hd : inRange '0' '9' c = false) (hs : isPySpace c = false)
    (hp : (c == '+') = false) (hm : (c == '-') = false) : pyInt s = none :=
  pyIntCore_none (mem_stripEnds h hs) hd hp hm

/-- When no decade substring occurs and the integer parse fails, year
normalization raises. -/
theorem clean_model_year_error {s : String}
    (h3 : decadeTable.all (fun p => !strContains p.1 s) = true)
    (hp : pyInt s = none) : clean_model_year (some s) = .error () := by
  simp only [decadeTable, List.all_cons, List.all_nil, Bool.and_eq_true,
    Bool.not_eq_true', and_true] at h3
  obtain ⟨h00, h10, h30, h50, h60, h69, h70, h80, h90⟩ := h3
  simp [clean_model_year, h00, h10, h30, h50, h60, h69, h70, h80, h90, hp]

/-- C3: every extracted raw year string that is not a pure digit sequence
and contains none of the nine mapped decade substrings makes year
normalization fail with an unrecoverable integer-parse error (the uncaught
`ValueError` of `int()`), rather than return missing. -/
theorem year_parse_error (name s : String)
    (h1 : get_model_year name = some s)
    (h2 : s.data.all (inRange '0' '9') = false)
    (h3 : decadeTable.all (fun p => !strContains p.1 s) = true) :
    clean_model_year (some s) = .error () := by
  apply clean_model_year_error h3
  unfold get_model_year at h1
  cases e1 : reSearch regex_one name.data with
  | some m =>
      simp only [e1] at h1
      obtain rfl := Option.some.inj h1
      have hf := reSearch_forall₂ regex_one name.data m e1
      simp only [regex_one, List.forall₂_cons_left_iff, List.forall₂_nil_left_iff] at hf
      obtain ⟨c1, u1, ha, ⟨c2, u2, hb, ⟨c3, u3, hc, ⟨c4, u4, hd, ⟨c5, u5, he, hnil, rfl⟩, rfl⟩, rfl⟩, rfl⟩, rfl⟩ := hf
      obtain rfl := chrEq_eq he
      exact pyInt_none_of_bad (c := 's') (s := String.mk _) (by simp) (by decide) (by decide) (by decide) (by decide)
  | none =>
  simp only [e1] at h1
  cases e2 : reSearch regex_two name.data with
  | some m =>
      simp only [e2] at h1
      obtain rfl := Option.some.inj h1
      have hd2 : m.all (inRange '0' '9') = false := h2
      have hf := reSearch_forall₂ regex_two name.data m e2
      simp only [regex_two, List.forall₂_cons_left_iff, List.forall₂_nil_left_iff] at hf
      obtain ⟨c1, u1, ha, ⟨c2, u2, hb, ⟨c3, u3, hc, ⟨c4, u4, hd, hnil, rfl⟩, rfl⟩, rfl⟩, rfl⟩ := hf
      obtain rfl := chrEq_eq ha
      obtain rfl := chrEq_eq hb
      subst hnil
      have hall : List.all ['1', '9', c3, c4] (inRange '0' '9') = true := by
        simp only [List.all_cons, List.all_nil, Bool.and_eq_true]
        exact ⟨by decide, by decide, inRange_widen hc (by decide) (by decide),
          hd, trivial⟩
      simp [hall] at hd2
  | none =>
  simp only [e2] at h1
  cases e3 : reSearch regex_three name.data with
  | some m =>
      simp only [e3] at h1
      obtain rfl := Option.some.inj h1
      have hf := reSearch_forall₂ regex_three name.data m e3
      simp only [regex_three, List.forall₂_cons_left_iff, List.forall₂_nil_left_iff] at hf
      obtain ⟨c1, u1, ha, ⟨c2, u2, hb, ⟨c3, u3, hc, ⟨c4, u4, hd, ⟨c5, u5, he, hnil, rfl⟩, rfl⟩, rfl⟩, rfl⟩, rfl⟩ := hf
      obtain rfl := chrEq_eq he
      exact pyInt_none_of_bad (c := 's') (s := String.mk _) (by simp) (by decide) (by decide) (by decide) (by decide)
  | none =>
  simp only [e3] at h1
  cases e4 : reSearch regex_four name.data with
  | some m =>
      simp only [e4] at h1
      obtain rfl := Option.some.inj h1
      have hd2 : m.all (inRange '0' '9') = false := h2
      have hf := reSearch_forall₂ regex_four name.data m e4
      simp only [regex_four, List.forall₂_cons_left_iff, List.forall₂_nil_left_iff] at hf
      obtain ⟨c1, u1, ha, ⟨c2, u2, hb, ⟨c3, u3, hc, ⟨c4, u4, hd, hnil, rfl⟩, rfl⟩, rfl⟩, rfl⟩ := hf
      obtain rfl := chrEq_eq ha
      obtain rfl := chrEq_eq hb
      subst hnil
      have hall : List.all ['2', '0', c3, c4] (inRange '0' '9') = true := by
        simp only [List.all_cons, List.all_nil, Bool.and_eq_true]
        exact ⟨by decide, by decide, inRange_widen hc (by decide) (by decide),
          hd, trivial⟩
      simp [hall] at hd2
  | none =>
  simp only [e4] at h1
  cases e5 : reSearch regex_five name.data with
  | some m =>
      simp only [e5] at h1
      obtain rfl := Option.some.inj h1
      have hf := reSearch_forall₂ regex_five name.data m e5
      simp only [regex_five, List.forall₂_cons_left_iff, List.forall₂_nil_left_iff] at hf
      obtain ⟨c1, u1, ha, ⟨c2, u2, hb, ⟨c3, u3, hc, ⟨c4, u4, hd, hnil, rfl⟩, rfl⟩, rfl⟩, rfl⟩ := hf
      obtain rfl := chrEq_eq ha
      exact pyInt_none_of_bad (c := '\'') (s := String.mk _) (by simp) (by decide) (by decide) (by decide) (by decide)
  | none =>
  simp only [e5] at h1
  cases e6 : reSearch regex_six name.data with
  | some m =>
      simp only [e6] at h1
      obtain rfl := Option.some.inj h1
      have hf := reSearch_forall₂ regex_six name.data m e6
      simp only [regex_six, List.forall₂_cons_left_iff, List.forall₂_nil_left_iff] at hf
      obtain ⟨c1, u1, ha, ⟨c2, u2, hb, ⟨c3, u3, hc, hnil, rfl⟩, rfl⟩, rfl⟩ := hf
      obtain rfl := chrEq_eq hc
      exact pyInt_none_of_bad (c := 's') (s := String.mk _) (by simp) (by decide) (by decide) (by decide) (by decide)
  | none =>
  simp only [e6] at h1
  cases e7 : reSearch regex_seven name.data with
  | some m =>
      simp only [e7] at h1
      obtain rfl := Option.some.inj h1
      have hf := reSearch_forall₂ regex_seven name.data m e7
      simp only [regex_seven, List.forall₂_cons_left_iff, List.forall₂_nil_left_iff] at hf
      obtain ⟨c1, u1, ha, ⟨c2, u2, hb, ⟨c3, u3, hc, hnil, rfl⟩, rfl⟩, rfl⟩ := hf
      obtain rfl := chrEq_eq ha
      exact pyInt_none_of_bad (c := '\'') (s := String.mk _) (by simp) (by decide) (by decide) (by decide) (by decide)
  | none =>
      simp only [e7] at h1
      exact Option.noConfusion h1

/-- C3 witness: the title `"Gibson Les Paul '59"` extracts `"'59"` via pattern
seven, which is not a digit sequence, matches no decade substring, and makes
normalization raise. -/
theorem year_parse_error_witness :
    get_model_year "Gibson Les Paul '59" = some "'59" ∧
    "'59".data.all (inRange '0' '9') = false ∧
    decadeTable.all (fun p => !strContains p.1 "'59") = true ∧
    clean_model_year (some "'59") = .error () :=
  ⟨by decide, by decide, by decide,
   year_parse_error "Gibson Les Paul '59" "'59" (by decide) (by decide) (by decide)⟩

/-- The per-row column rewrites keep the Brand field unchanged. -/
theorem addDerived_brand {r : RawRow} {row : Row} (h : addDerived r = .ok row) :
    row.Brand = r.Brand := by
  unfold addDerived at h
  cases h1 : clean_model_year (get_model_year r.Name) with
  | error e => rw [h1] at h; cases h
  | ok my =>
      rw [h1] at h
      cases h2 : pyFloat (stripCommasDropFirst r.Final) with
      | none => rw [h2] at h; cases h
      | some q =>
          rw [h2] at h
          cases h3 : clean_asking_price r.Asking with
          | error e => rw [h3] at h; cases h
          | ok ask =>
              rw [h3] at h
              cases h
              rfl

/-- Every row of the cleaned table carries the brand of an input row. -/
theorem applyRows_brands {rs : List RawRow} {rows : List Row} :
    applyRows rs = .ok rows → ∀ row ∈ rows, ∃ r ∈ rs, row.Brand = r.Brand := by
  induction rs generalizing rows with
  | nil =>
      intro h row hrow
      cases h
      cases hrow
  | cons r rest ih =>
      intro h row hrow
      unfold applyRows at h
      cases h1 : addDerived r with
      | error e => rw [h1] at h; cases h
      | ok row0 =>
          rw [h1] at h
          cases h2 : applyRows rest with
          | error e => rw [h2] at h; cases h
          | ok rows' =>
              rw [h2] at h
              cases h
              rcases List.mem_cons.mp hrow with rfl | hmem
              · exact ⟨r, List.mem_cons_self r rest, addDerived_brand h1⟩
              · obtain ⟨r', hr', hbrand⟩ := ih h2 row hmem
                exact ⟨r', List.mem_cons.mpr (Or.inr hr'), hbrand⟩

/-- Each distinct brand occurs once in the count table. -/
theorem brandCounts_nodup (rows : List RawRow) : (brandCounts rows).Nodup := by
  unfold brandCounts
  exact ((brands rows).nodup_dedup).map (fun x y h => congrArg Prod.fst h)

/-- Every count-table entry pairs a brand with its row count. -/
theorem mem_brandCounts_eq {rows : List RawRow} {p : String × Nat}
    (hp : p ∈ brandCounts rows) : p = (p.1, (brands rows).count p.1) := by
  unfold brandCounts at hp
  obtain ⟨x, _, rfl⟩ := List.mem_map.mp hp
  rfl

/-- Unfolding of `to_df` as a single filter. -/
theorem to_df_eq (records : List SaleRecord) :
    to_df records = (rawRows records).filter
      (fun r => (top_twenty (rawRows records)).contains r.Brand) := rfl

/-- A brand strictly outcounted by at least twenty distinct brands cannot
appear among the twenty most frequent: the sorted count list places all
twenty strictly-greater entries before it, so it falls outside the prefix. -/
theorem not_mem_top_twenty {rows : List RawRow} {b : String}
    (h : 20 ≤ ((brandCounts rows).filter
      (fun p => decide ((brands rows).count b < p.2))).length) :
    b ∉ top_twenty rows := by
  intro hb
  unfold top_twenty at hb
  obtain ⟨e, he, hfst⟩ := List.mem_map.mp hb
  subst hfst
  have hel : e ∈ List.insertionSort cntGE (brandCounts rows) := List.mem_of_mem_take he
  have hec : e ∈ brandCounts rows := (List.mem_insertionSort cntGE).mp hel
  have he2 : e = (e.1, (brands rows).count e.1) := mem_brandCounts_eq hec
  have hcb : e.2 = (brands rows).count e.1 := congrArg Prod.snd he2
  have hsorted : List.Pairwise cntGE (List.insertionSort cntGE (brandCounts rows)) :=
    List.sorted_insertionSort cntGE (brandCounts rows)
  have hpw : List.Pairwise cntGE
      ((List.insertionSort cntGE (brandCounts rows)).take 20 ++
       (List.insertionSort cntGE (brandCounts rows)).drop 20) := by
    rw [List.take_append_drop]
    exact hsorted
  have hsub : ∀ s ∈ (brandCounts rows).filter
      (fun p => decide ((brands rows).count e.1 < p.2)),
      s ∈ (List.insertionSort cntGE (brandCounts rows)).take 20 := by
    intro s hs
    have hsc : s ∈ brandCounts rows := List.mem_of_mem_filter hs
    have hslt : (brands rows).count e.1 < s.2 := by
      simpa using List.of_mem_filter hs
    have hsl : s ∈ List.insertionSort cntGE (brandCounts rows) :=
      (List.mem_insertionSort cntGE).mpr hsc
    have hsl2 : s ∈ (List.insertionSort cntGE (brandCounts rows)).take 20 ++
        (List.insertionSort cntGE (brandCounts rows)).drop 20 := by
      rw [List.take_append_drop]
      exact hsl
    rcases List.mem_append.mp hsl2 with htake | hdrop
    · exact htake
    · exfalso
      have hle : cntGE e s := (List.pairwise_append.mp hpw).2.2 e he s hdrop
      unfold cntGE at hle
      rw [hcb] at hle
      omega
  have hnotin : e ∉ (brandCounts rows).filter
      (fun p => decide ((brands rows).count e.1 < p.2)) := by
    intro hmem
    have := List.of_mem_filter hmem
    rw [← hcb] at this
    simp at this
  have hnodup : (e :: (brandCounts rows).filter
      (fun p => decide ((brands rows).count e.1 < p.2))).Nodup :=
    List.nodup_cons.mpr ⟨hnotin, (brandCounts_nodup rows).filter _⟩
  have hsubset : (e :: (brandCounts rows).filter
      (fun p => decide ((brands rows).count e.1 < p.2))) ⊆
      (List.insertionSort cntGE (brandCounts rows)).take 20 := by
    intro x hx
    rcases List.mem_cons.mp hx with rfl | hx2
    · exact he
    · exact hsub x hx2
  have hlen := (hnodup.subperm hsubset).length_le
  have htake : ((List.insertionSort cntGE (brandCounts rows)).take 20).length ≤ 20 :=
    List.length_take_le 20 _
  simp only [List.length_cons] at hlen
  omega

/-- C8: only rows whose Brand is among the twenty most frequent brands by row
count are kept by `to_df`, so a brand strictly outcounted by at least twenty
distinct brands (rank 21 or lower) appears in neither the full cleaned table
nor the feature table. -/
theorem top_twenty_brand_filter (records : List SaleRecord) (b : String)
    (h : 20 ≤ ((brandCounts (rawRows records)).filter
        (fun p => decide ((brands (rawRows records)).count b < p.2))).length) :
    ((to_df records).all (fun r => (top_twenty (rawRows records)).contains r.Brand) = true) ∧
    ((to_df records).all (fun r => !(r.Brand == b)) = true) ∧
    (∀ rows, applyRows (to_df records) = .ok rows →
      rows.all (fun r => !(r.Brand == b)) = true ∧
      (df_format rows).all (fun r => !(r.Brand == b)) = true) := by
  have hnot : b ∉ top_twenty (rawRows records) := not_mem_top_twenty h
  have hne : ∀ r ∈ to_df records, r.Brand ≠ b := by
    intro r hr hEq
    have hcont : (top_twenty (rawRows records)).contains r.Brand = true := by
      rw [to_df_eq] at hr
      have hc := List.of_mem_filter hr
      simpa using hc
    rw [hEq] at hcont
    exact hnot (List.elem_iff.mp hcont)
  refine ⟨?_, ?_, ?_⟩
  · refine List.all_eq_true.mpr (fun r hr => ?_)
    rw [to_df_eq] at hr
    have hc := List.of_mem_filter hr
    simpa using hc
  · refine List.all_eq_true.mpr (fun r hr => ?_)
    simpa using hne r hr
  · intro rows hrows
    have hrne : ∀ row ∈ rows, row.Brand ≠ b := by
      intro row hrow
      obtain ⟨r, hr, hbrand⟩ := applyRows_brands hrows row hrow
      rw [hbrand]
      exact hne r hr
    refine ⟨List.all_eq_true.mpr (fun row hrow => by simpa using hrne row hrow), ?_⟩
    refine List.all_eq_true.mpr (fun row hrow => ?_)
    have : row ∈ rows := (mem_df_format.mp hrow).1
    simpa using hrne row this

/-- C8 witness: with twenty brands of two sales each and `"Z"` with one sale,
`"Z"` is strictly outcounted by twenty brands and no kept row carries it. -/
theorem top_twenty_brand_filter_witness :
    20 ≤ ((brandCounts (rawRows c8recs)).filter
        (fun p => decide ((brands (rawRows c8recs)).count "Z" < p.2))).length ∧
    (to_df c8recs).all (fun r => !(r.Brand == "Z")) = true :=
  ⟨by decide, (top_twenty_brand_filter c8recs "Z" (by decide)).2.1⟩

/-- C1: for every title string, `get_model_year` applies the seven textual
patterns in strict priority order and returns the raw text of the first
pattern that matches anywhere in the title; when no pattern matches the
result is missing (`none`). -/
theorem get_model_year_priority :
    ∀ name, get_model_year name =
      List.findSome? (fun pat => Option.map String.mk (reSearch pat name.data)) yearPatterns := by
  intro name
  unfold get_model_year yearPatterns
  simp only [List.findSome?_cons, List.findSome?_nil]
  cases h1 : reSearch regex_one name.data with
  | some m => simp [h1]
  | none =>
  simp only [h1, Option.map_none']
  cases h2 : reSearch regex_two name.data with
  | some m => simp [h2]
  | none =>
  simp only [h2, Option.map_none']
  cases h3 : reSearch regex_three name.data with
  | some m => simp [h3]
  | none =>
  simp only [h3, Option.map_none']
  cases h4 : reSearch regex_four name.data with
  | some m => simp [h4]
  | none =>
  simp only [h4, Option.map_none']
  cases h5 : reSearch regex_five name.data with
  | some m => simp [h5]
  | none =>
  simp only [h5, Option.map_none']
  cases h6 : reSearch regex_six name.data with
  | some m => simp [h6]
  | none =>
  simp only [h6, Option.map_none']
  cases h7 : reSearch regex_seven name.data with
  | some m => simp [h7]
  | none => simp [h7]

/-- C2: year normalization equals the fixed-order first-match decade table
with integer-literal fallback and missing passthrough; in particular the
title `"Fender Stratocaster 1965"` extracts raw text `"1965"` and normalizes
to the integer 1965 through the exact-year branch (no decade remap fires). -/
theorem clean_model_year_matches_table :
    (∀ my, clean_model_year my = clean_model_year_table my) ∧
    get_model_year "Fender Stratocaster 1965" = some "1965" ∧
    clean_model_year (get_model_year "Fender Stratocaster 1965") = .ok (some 1965) := by
  refine ⟨fun my => ?_, by decide, rfl⟩
  cases my with
  | none => rfl
  | some s =>
      simp only [clean_model_year, clean_model_year_table, decadeTable, List.find?]
      repeat' split <;> simp_all

/-- C6: a row is in the feature table exactly when it is an input row with
non-missing model year and asking price and final price strictly between 30
and 40000; the concrete row with final price 25 is excluded from the feature
table while remaining in the (unmodified) full cleaned table. -/
theorem df_format_row_filter :
    (∀ df r, r ∈ df_format df ↔ (r ∈ df ∧ rowPasses r = true)) ∧
    (c6row.Final = 25 ∧ c6row ∈ [c6row] ∧ c6row ∉ df_format [c6row]) :=
  ⟨fun _ _ => mem_df_format, by decide, by decide, by decide⟩

/-- The price loop splits by counter parity: starting the counter at `c`, the
asking side collects exactly the prices at odd counter values and the final
side those at even counter values. -/
theorem splitPrices_eq (ps : List String) : ∀ c, splitPrices c ps =
    ((List.enumFrom c ps).filterMap (fun q => if q.1 % 2 == 1 then some q.2 else none),
     (List.enumFrom c ps).filterMap (fun q => if q.1 % 2 == 1 then none else some q.2)) := by
  induction ps with
  | nil => intro c; rfl
  | cons p rest ih =>
      intro c
      simp only [splitPrices, List.enumFrom, List.filterMap_cons, ih (c + 1)]
      cases hc : c % 2 == 1 <;> simp [hc]

/-- C7: a listing page with N date entries (N ≥ 1) emits exactly N-1 records,
each carrying the page heading as Name; the first date and condition entries
are discarded as headers; and every price element is assigned by the parity
of its 1-indexed document position, odd to Asking, even to Final. -/
theorem get_data_page_spec (p : Page) (_h : 1 ≤ p.dates.length) :
    (get_data_page p).Name.length = p.dates.length - 1 ∧
    (get_data_page p).Name = List.replicate (p.dates.length - 1) p.heading ∧
    (get_data_page p).Date = p.dates.drop 1 ∧
    (get_data_page p).Date.length = p.dates.length - 1 ∧
    (get_data_page p).Condition = p.conditions.drop 1 ∧
    (get_data_page p).Asking =
      (List.enumFrom 1 p.prices).filterMap (fun q => if q.1 % 2 == 1 then some q.2 else none) ∧
    (get_data_page p).Final =
      (List.enumFrom 1 p.prices).filterMap (fun q => if q.1 % 2 == 1 then none else some q.2) := by
  refine ⟨?_, ?_, rfl, ?_, rfl, ?_, ?_⟩
  · simp [get_data_page]
  · simp [get_data_page, List.map_const']
  · simp [get_data_page]
  · simp [get_data_page, splitPrices_eq]
  · simp [get_data_page, splitPrices_eq]

/-- C7 witness: the record-extractor property instantiated at `c7page`. -/
theorem get_data_page_spec_witness :
    1 ≤ c7page.dates.length ∧
    ((get_data_page c7page).Name.length = c7page.dates.length - 1 ∧
     (get_data_page c7page).Name = List.replicate (c7page.dates.length - 1) c7page.heading ∧
     (get_data_page c7page).Date = c7page.dates.drop 1 ∧
     (get_data_page c7page).Date.length = c7page.dates.length - 1 ∧
     (get_data_page c7page).Condition = c7page.conditions.drop 1 ∧
     (get_data_page c7page).Asking =
       (List.enumFrom 1 c7page.prices).filterMap (fun q => if q.1 % 2 == 1 then some q.2 else none) ∧
     (get_data_page c7page).Final =
       (List.enumFrom 1 c7page.prices).filterMap (fun q => if q.1 % 2 == 1 then none else some q.2)) :=
  ⟨by decide, get_data_page_spec c7page (by decide)⟩

/-- C9: the dataset-builder row filters are idempotent — reapplying
`df_format` to its own output removes no row, and every row of the output
satisfies all four filter predicates. -/
theorem df_format_idempotent :
    ∀ df, df_format (df_format df) = df_format df ∧
      (df_format df).all rowPasses = true := by
  intro df
  constructor
  · rw [df_format_eq_filter, df_format_eq_filter, List.filter_filter]
    exact List.filter_congr (fun a _ => Bool.and_self _)
  · rw [df_format_eq_filter]
    exact List.all_eq_true.mpr (fun r hr => (List.mem_filter.mp hr).2)

end Guitar
